import Mathlib

/-!
# db_explorer: schema description, row coercion and statement building

A shallow embedding of `db_explorer.go`.  The database handle, the HTTP request and the
response writer are explicit values:

* a `SqlDB` answers `Query` and `Exec` calls (each may fail);
* a `Request` carries method, URL path, form values and the decoded body;
* a handler returns an `Outcome`: the SQL calls it issued, in order, the responses it
  wrote, in order, and whether it ended in a run-time panic.

Go maps are association lists with distinct keys (`mapSet` overwrites in place or appends).
Go leaves the iteration order of a map unspecified; a request body is given as the list of
its entries in the order `range` visits them, and the maps built by the program are visited
in insertion order.
-/

namespace DbExplorer

/-! ## Go maps -/

/-- Assignment `m[k] = v` on a map kept as an association list. -/
def mapSet {V : Type} : List (String × V) → String → V → List (String × V)
  | [], k, v => [(k, v)]
  | (k', v') :: rest, k, v =>
    if k' = k then (k', v) :: rest else (k', v') :: mapSet rest k v

/-- Lookup `m[k]`; `none` when the key is absent (Go yields the zero value, a nil interface). -/
def mapGet {V : Type} : List (String × V) → String → Option V
  | [], _ => none
  | (k', v') :: rest, k => if k' = k then some v' else mapGet rest k

/-! ## Database driver -/

/-- The metadata `sql.ColumnType` exposes and the program reads. -/
structure ColumnType where
  Name : String
  DatabaseTypeName : String
  Nullable : Bool
deriving DecidableEq, Repr

/-- A value as the driver hands it over for one cell of a row. -/
inductive DriverValue where
  | null
  | text (s : String)
  | int (n : Int)
deriving DecidableEq, Repr

/-- An open result set (`*sql.Rows`): `closedErr`, when set, is the error `Columns` and
`ColumnTypes` return; `columnTypes` is the column metadata in schema order; `rows` holds
the cells of every row. -/
structure Rows where
  closedErr : Option String
  columnTypes : List ColumnType
  rows : List (List DriverValue)
deriving DecidableEq, Repr

/-- The call `result.ColumnTypes()`. -/
def Rows.ColumnTypes (result : Rows) : Except String (List ColumnType) :=
  match result.closedErr with
  | some e => .error e
  | none => .ok result.columnTypes

/-- The call `result.Columns()`. -/
def Rows.Columns (result : Rows) : Except String (List String) :=
  match result.closedErr with
  | some e => .error e
  | none => .ok (result.columnTypes.map (·.Name))

/-- The pointer types stored in `Columns.MetaData`:
`*string`, `*sql.NullString`, `*int32`, `*sql.NullInt32`. -/
inductive MetaType where
  | string
  | NullString
  | int32
  | NullInt32
deriving DecidableEq, Repr

/-- The values stored in `Columns.NamesWithTypes` and in the update field map:
a Go string, `sql.NullString{}` or `sql.NullInt32{}`. -/
inductive FieldVal where
  | str (s : String)
  | NullString
  | NullInt32
deriving DecidableEq, Repr

/-- What `sql.Result` reports after an `Exec`. -/
structure ExecResult where
  RowsAffected : Except String Int
  LastInsertId : Except String Int

/-- The database handle `*sql.DB` as the handlers use it; the receiver `h *Handler` of the
handlers is represented by this handle, its only field that is read. -/
structure SqlDB where
  Query : String → Except String Rows
  Exec : String → List FieldVal → Except String ExecResult

/-! ## NewQuery -/

/-- The struct `Columns`. -/
structure Columns where
  MetaData : List (String × MetaType)
  NamesWithTypes : List (String × FieldVal)
  IDNameColumn : String
deriving DecidableEq, Repr

/-- The body of the inner loop of `NewQuery`: the `switch columnType` for one column. -/
def describeColumn (columns : Columns) (v : ColumnType) : Columns :=
  if v.DatabaseTypeName = "TEXT" ∨ v.DatabaseTypeName = "VARCHAR" then
    if v.Nullable then
      { columns with MetaData := mapSet columns.MetaData v.Name MetaType.NullString }
    else
      { columns with
        MetaData := mapSet columns.MetaData v.Name MetaType.string
        NamesWithTypes := mapSet columns.NamesWithTypes v.Name (FieldVal.str "") }
  else if v.DatabaseTypeName = "INT" then
    if v.Nullable then
      { columns with
        IDNameColumn := v.Name
        MetaData := mapSet columns.MetaData v.Name MetaType.NullInt32 }
    else
      { columns with
        IDNameColumn := v.Name
        MetaData := mapSet columns.MetaData v.Name MetaType.int32 }
  else columns

/-- The loop `for result.Next()` of `NewQuery`, one step per remaining row. -/
def newQueryLoop (result : Rows) : List (List DriverValue) → Columns → Except String Columns
  | [], columns => .ok columns
  | _ :: rest, columns =>
    match result.ColumnTypes with
    | .error e => .error e
    | .ok cols => newQueryLoop result rest (cols.foldl describeColumn columns)

/-- The function `NewQuery`. -/
def NewQuery (db : SqlDB) (query : String) : Except String Columns :=
  match db.Query query with
  | .error e => .error e
  | .ok result => newQueryLoop result result.rows ⟨[], [], ""⟩

/-! ## Strings and regular expressions

Go strings are handled as lists of characters.  The four patterns the handlers compile are
matched directly; each follows Go's leftmost-first semantics, and because the character
classes `[\w]`, `[\d]`, `/` and `[/?]` are pairwise disjoint where they meet, the greedy
choice is the only one that can succeed. -/

/-- The class `[\w]`: ASCII letters, digits and the underscore. -/
def isWord (c : Char) : Bool := c.isAlphanum || c == '_'

/-- The class `[\d]`: ASCII digits. -/
def isDigit (c : Char) : Bool := c.isDigit

/-- The class `.`: every character but the line feed. -/
def isDot (c : Char) : Bool := c != Char.ofNat 10

/-- Leftmost match of `/[\w]*[/?]?` in a string; empty when there is none. -/
def reTableNameFind : List Char → List Char
  | [] => []
  | c :: cs =>
    if c = '/' then
      match cs.dropWhile isWord with
      | d :: _ =>
        if d = '/' ∨ d = '?' then '/' :: (cs.takeWhile isWord ++ [d])
        else '/' :: cs.takeWhile isWord
      | [] => '/' :: cs.takeWhile isWord
    else reTableNameFind cs

/-- Leftmost match of `/[\w]*/[\d]*` in a string; empty when there is none. -/
def reWithIDFind : List Char → List Char
  | [] => []
  | c :: cs =>
    if c = '/' then
      match cs.dropWhile isWord with
      | d :: tail =>
        if d = '/' then '/' :: (cs.takeWhile isWord ++ '/' :: tail.takeWhile isDigit)
        else reWithIDFind cs
      | [] => reWithIDFind cs
    else reWithIDFind cs

/-- Leftmost match of `/[\w]*/[\d].*` in a string; empty when there is none. -/
def reWithIDRestFind : List Char → List Char
  | [] => []
  | c :: cs =>
    if c = '/' then
      match cs.dropWhile isWord with
      | d :: n :: tail =>
        if d = '/' ∧ isDigit n then
          '/' :: (cs.takeWhile isWord ++ '/' :: n :: tail.takeWhile isDot)
        else reWithIDRestFind cs
      | _ => reWithIDRestFind cs
    else reWithIDRestFind cs

/-- The test `regexp.MatchString` with pattern `/[\d].*`: a slash followed by a digit occurs. -/
def matchSlashDigit : List Char → Bool
  | c :: n :: cs => (c == '/' && isDigit n) || matchSlashDigit (n :: cs)
  | _ => false

/-- The call `strings.Trim(s, "/")`. -/
def Trim (s : List Char) : List Char :=
  ((s.dropWhile (· == '/')).reverse.dropWhile (· == '/')).reverse

/-- The call `strings.Split(s, "/")`. -/
def Split : List Char → List (List Char)
  | [] => [[]]
  | c :: cs =>
    if c = '/' then [] :: Split cs
    else
      match Split cs with
      | [] => [[c]]
      | p :: ps => (c :: p) :: ps

/-- The call `strconv.Atoi`: an optional sign, then one or more decimal digits, in the range
of a 64-bit `int`; `none` stands for the error result. -/
def Atoi (s : String) : Option Int :=
  let signed : Bool × List Char :=
    match s.data with
    | '-' :: t => (true, t)
    | '+' :: t => (false, t)
    | cs => (false, cs)
  if signed.2 = [] then none
  else if signed.2.all isDigit then
    let n : Nat := signed.2.foldl (fun a c => 10 * a + (c.toNat - 48)) 0
    let v : Int := if signed.1 then -(n : Int) else (n : Int)
    if -(2 : Int) ^ 63 ≤ v ∧ v ≤ (2 : Int) ^ 63 - 1 then some v else none
  else none

/-- The verb `%d` of `fmt.Sprintf` on an integer. -/
def fmtD (n : Int) : String := toString n

/-- The call `fmt.Sprintf("%s", v)` on a value of `NamesWithTypes`: a string prints as itself,
the zero structs print their fields with the bad-verb marker. -/
def fmtS : FieldVal → String
  | .str s => s
  | .NullString => "\x7b %!s(bool=false)\x7d"
  | .NullInt32 => "\x7b%!s(int32=0) %!s(bool=false)\x7d"

/-- The call `strings.Join(elems, ", ")`. -/
def Join : List String → String
  | [] => ""
  | [a] => a
  | a :: rest => a ++ ", " ++ Join rest

/-! ## Scanning rows -/

/-- Conversion of a driver value into a `*string` destination. -/
def scanString : DriverValue → Except String String
  | .null => .error "converting NULL to string is unsupported"
  | .text s => .ok s
  | .int n => .ok (fmtD n)

/-- Conversion of a driver value into an `*int` destination. -/
def scanInt : DriverValue → Except String Int
  | .null => .error "converting NULL to int is unsupported"
  | .text s =>
    match Atoi s with
    | some n => .ok n
    | none => .error "converting driver.Value type string to a int: invalid syntax"
  | .int n => .ok n

/-- Conversion of a driver value into an `int32` field. -/
def scanInt32 (v : DriverValue) : Except String Int :=
  match scanInt v with
  | .error e => .error e
  | .ok n =>
    if -(2 : Int) ^ 31 ≤ n ∧ n ≤ (2 : Int) ^ 31 - 1 then .ok n
    else .error "converting driver.Value type to a int32: value out of range"

/-- The destinations `getDataFromDB` allocates in `data`: the untouched nil slot, `new(string)`,
`new(int)`, `new(sql.NullString)`, `new(sql.NullInt32)`. -/
inductive Dest where
  | nil
  | string
  | int
  | NullString
  | NullInt32
deriving DecidableEq, Repr

/-- A destination after `Scan` has filled it. -/
inductive Scanned where
  | string (s : String)
  | int (n : Int)
  | NullString (String : String) (Valid : Bool)
  | NullInt32 (Int32 : Int) (Valid : Bool)
deriving DecidableEq, Repr

/-- What `Scan` does with one destination and one cell. -/
def convertAssign : Dest → DriverValue → Except String Scanned
  | .nil, _ => .error "sql: Scan error: destination not a pointer"
  | .string, v =>
    match scanString v with
    | .error e => .error e
    | .ok s => .ok (.string s)
  | .int, v =>
    match scanInt v with
    | .error e => .error e
    | .ok n => .ok (.int n)
  | .NullString, .null => .ok (.NullString "" false)
  | .NullString, v =>
    match scanString v with
    | .error e => .error e
    | .ok s => .ok (.NullString s true)
  | .NullInt32, .null => .ok (.NullInt32 0 false)
  | .NullInt32, v =>
    match scanInt32 v with
    | .error e => .error e
    | .ok n => .ok (.NullInt32 n true)

/-- The call `result.Scan(data...)` on one row. -/
def scanRow : List Dest → List DriverValue → Except String (List Scanned)
  | [], [] => .ok []
  | d :: ds, c :: cs =>
    match convertAssign d c with
    | .error e => .error e
    | .ok s =>
      match scanRow ds cs with
      | .error e => .error e
      | .ok ss => .ok (s :: ss)
  | _, _ => .error "sql: wrong number of destination arguments in Scan"

/-- The function `getTableNames`, loop part: every row is scanned into one string. -/
def getTableNamesLoop : List (List DriverValue) → List String → Except String (List String)
  | [], tableNames => .ok tableNames
  | row :: rest, tableNames =>
    match row with
    | [cell] =>
      match scanString cell with
      | .error e => .error e
      | .ok name => getTableNamesLoop rest (tableNames ++ [name])
    | _ => .error "sql: wrong number of destination arguments in Scan"

/-- The function `getTableNames`. -/
def getTableNames (db : SqlDB) : Except String (List String) :=
  match db.Query "SHOW TABLES" with
  | .error e => .error e
  | .ok rows => getTableNamesLoop rows.rows []

/-- A value of a Record: JSON null, text or integer. -/
inductive Value where
  | null
  | text (s : String)
  | int (n : Int)
deriving DecidableEq, Repr

/-- One row after coercion: column name to value. -/
abbrev Record := List (String × Value)

/-- The destination `getDataFromDB` allocates for a column (the `switch columnType`). -/
def allocDest (v : ColumnType) : Dest :=
  if v.DatabaseTypeName = "TEXT" ∨ v.DatabaseTypeName = "VARCHAR" then
    if v.Nullable then Dest.NullString else Dest.string
  else if v.DatabaseTypeName = "INT" then
    if v.Nullable then Dest.NullInt32 else Dest.int
  else Dest.nil

/-- The map `dataMap` of one row: every column of a represented type is entered under its
name with its destination; the destinations are shared with `data`, so after `Scan` the
entries hold the scanned values. -/
def fillDataMap : List ColumnType → List Scanned → List (String × Scanned) →
    List (String × Scanned)
  | v :: cols, s :: ss, dataMap =>
    if allocDest v = Dest.nil then fillDataMap cols ss dataMap
    else fillDataMap cols ss (mapSet dataMap v.Name s)
  | _, _, dataMap => dataMap

/-- The type switch of the second loop of `getDataFromDB` on one map value. -/
def unwrap : Scanned → Value
  | .string s => Value.text s
  | .int n => Value.int n
  | .NullString s valid => if valid then Value.text s else Value.null
  | .NullInt32 n valid => if valid then Value.int n else Value.null

/-- The first loop of `getDataFromDB`: one `dataMap` per row. -/
def scanLoop (result : Rows) :
    List (List DriverValue) → List (List (String × Scanned)) →
      Except String (List (List (String × Scanned)))
  | [], output => .ok output
  | row :: rest, output =>
    match result.Columns with
    | .error e => .error e
    | .ok _ =>
      match result.ColumnTypes with
      | .error e => .error e
      | .ok columns =>
        match scanRow (columns.map allocDest) row with
        | .error e => .error e
        | .ok data => scanLoop result rest (output ++ [fillDataMap columns data []])

/-- The function `getDataFromDB`. -/
def getDataFromDB (db : SqlDB) (query : String) : Except String (List Record) :=
  match db.Query query with
  | .error e => .error e
  | .ok result =>
    match scanLoop result result.rows [] with
    | .error e => .error e
    | .ok output => .ok (output.map (fun oneSet => oneSet.map (fun kv => (kv.1, unwrap kv.2))))

/-! ## Requests, responses, outcomes -/

/-- A field value of the decoded JSON object, as the type switches tell them apart:
`float64`, `string`, `nil`, and everything else (booleans, arrays, objects).  The payload of
a number is never inspected; an integer stands in for it. -/
inductive JsonField where
  | number (x : Int)
  | string (s : String)
  | null
  | other
deriving DecidableEq, Repr

/-- The request body after `ioutil.ReadAll` and `json.Unmarshal`: a read error, a decoding
error, a JSON object (its entries in the order `range` visits them) or any other JSON
value. -/
inductive Body where
  | readError (e : String)
  | invalidJson (e : String)
  | object (fields : List (String × JsonField))
  | notObject
deriving DecidableEq, Repr

/-- The parts of `*http.Request` the handlers read. -/
structure Request where
  Method : String
  Path : String
  Form : List (String × String)
  Body : Body
deriving DecidableEq, Repr

/-- The call `r.FormValue(key)`: the value of the key, or the empty string. -/
def Request.FormValue (r : Request) (key : String) : String :=
  (mapGet r.Form key).getD ""

/-- The JSON documents the handlers marshal:
`error msg` is `{"error": msg}`, `tables ns` is `{"response": {"tables": ns}}`,
`record d` is `{"response": {"record": d}}`, `records ds` is `{"response": {"records": ds}}`,
`updated n` is `{"response": {"updated": n}}`, `deleted n` is `{"response": {"deleted": n}}`,
and `inserted c n` is `{"response": {c: n}}`. -/
inductive ResponseBody where
  | error (msg : String)
  | tables (names : List String)
  | record (data : Record)
  | records (data : List Record)
  | updated (affected : Int)
  | deleted (affected : Int)
  | inserted (idColumn : String) (id : Int)
deriving DecidableEq, Repr

/-- One call on the database handle: `db.Query(text)` or `db.Exec(text, args...)`. -/
inductive SqlCall where
  | query (text : String)
  | exec (text : String) (args : List FieldVal)
deriving DecidableEq, Repr

/-- What a handler did: the database calls in order, the `WriteHeader`/`Write` pairs in
order, and whether it stopped in a run-time panic. -/
structure Outcome where
  calls : List SqlCall
  writes : List (Nat × ResponseBody)
  panicked : Bool
deriving DecidableEq, Repr

/-- The function `internalServerError`. -/
def internalServerError : Nat × ResponseBody := (500, ResponseBody.error "internal server error")

/-- The function `isExistsParam`. -/
def isExistsParam (r : Request) (key : String) : Bool :=
  decide ((r.FormValue key).length > 0)

/-- The table name a handler reads off the path:
`strings.Trim(regexp.MustCompile("/[\\w]*[/?]?").FindString(path), "/")`. -/
def reqTableNameOf (path : String) : String := ⟨Trim (reTableNameFind path.data)⟩

/-! ## Read -/

/-- The `else` branch of `Read` (no id in the path): the statement with the optional
`WHERE` and `LIMIT` parts. -/
def readAllQuery (r : Request) (query : String) (columns : Columns) : String :=
  let query :=
    if isExistsParam r "offset" then
      match Atoi (r.FormValue "offset") with
      | none => query ++ ("WHERE " ++ columns.IDNameColumn ++ " > " ++ fmtD 0 ++ " ")
      | some param => query ++ ("WHERE " ++ columns.IDNameColumn ++ " > " ++ fmtD param ++ " ")
    else query
  if isExistsParam r "limit" then
    match Atoi (r.FormValue "limit") with
    | none => query ++ ("LIMIT " ++ fmtD 5)
    | some param => query ++ ("LIMIT " ++ fmtD param)
  else query

/-- The body of the loop of `Read` for the table that matches the path; `ID` is
`strings.Split(reWithID, "/")`.  (`json.Marshal` cannot fail on these values.) -/
def readTable (db : SqlDB) (r : Request) (tableName : String) (ID : List (List Char)) : Outcome :=
  let query := "SELECT * FROM " ++ tableName ++ " "
  match NewQuery db query with
  | .error _ => ⟨[.query "SHOW TABLES", .query query], [internalServerError], false⟩
  | .ok columns =>
    if ID.length > 1 then
      match ID.get? 2 with
      | none => ⟨[.query "SHOW TABLES", .query query], [], true⟩
      | some id =>
        let byID := "SELECT * FROM " ++ tableName ++ " WHERE " ++ columns.IDNameColumn ++
          " = " ++ String.mk id
        match getDataFromDB db byID with
        | .error _ =>
          ⟨[.query "SHOW TABLES", .query query, .query byID], [internalServerError], false⟩
        | .ok data =>
          if data.length > 0 then
            ⟨[.query "SHOW TABLES", .query query, .query byID],
              data.map (fun d => (200, ResponseBody.record d)), false⟩
          else
            ⟨[.query "SHOW TABLES", .query query, .query byID],
              [(404, .error "record not found")], false⟩
    else
      let all := readAllQuery r query columns
      match getDataFromDB db all with
      | .error _ =>
        ⟨[.query "SHOW TABLES", .query query, .query all], [internalServerError], false⟩
      | .ok data =>
        ⟨[.query "SHOW TABLES", .query query, .query all], [(200, .records data)], false⟩

/-- The loop over `tableNames` in `Read`. -/
def readLoop (db : SqlDB) (r : Request) (reqTableName : String) (ID : List (List Char)) :
    List String → Outcome
  | [] => ⟨[.query "SHOW TABLES"], [(404, .error "unknown table")], false⟩
  | tableName :: rest =>
    if tableName = reqTableName then readTable db r tableName ID
    else readLoop db r reqTableName ID rest

/-- The handler `Read`. -/
def Read (db : SqlDB) (r : Request) : Outcome :=
  match getTableNames db with
  | .error _ => ⟨[.query "SHOW TABLES"], [internalServerError], false⟩
  | .ok tableNames =>
    if r.Path = "/" then ⟨[.query "SHOW TABLES"], [(200, .tables tableNames)], false⟩
    else
      readLoop db r (reqTableNameOf r.Path) (Split (reWithIDFind r.Path.data)) tableNames

/-! ## CreateAndUpdate -/

/-- The validation loop of the update branch of `CreateAndUpdate` (path with an id): the
fields are entered into `f`; `Except.error k` stands for the early return that answers
`field k have invalid type`. -/
def validateUpdate (columns : Columns) :
    List (String × JsonField) → List (String × FieldVal) → Except String (List (String × FieldVal))
  | [], f => .ok f
  | (k, v) :: rest, f =>
    match v with
    | .number _ => .error k
    | .string field =>
      match mapGet columns.MetaData k with
      | some MetaType.string => validateUpdate columns rest (mapSet f k (.str field))
      | some MetaType.NullString => validateUpdate columns rest (mapSet f k (.str field))
      | _ => .error k
    | .null =>
      match mapGet columns.MetaData k with
      | some MetaType.NullString => validateUpdate columns rest (mapSet f k .NullString)
      | some MetaType.NullInt32 => validateUpdate columns rest (mapSet f k .NullInt32)
      | _ => .error k
    | .other => validateUpdate columns rest f

/-- The loop that appends `name = ?` for every field of the update. -/
def updateSetList : List String → String
  | [] => ""
  | [v] => v ++ " = ? "
  | v :: rest => v ++ " = ?, " ++ updateSetList rest

/-- The validation loop of the insert branch of `CreateAndUpdate` (path without an id): the
accepted fields are entered into `columns.NamesWithTypes`; `Except.error k` stands for the
early return that answers `field k have invalid type`. -/
def validateInsert (MetaData : List (String × MetaType)) :
    List (String × JsonField) → List (String × FieldVal) → Except String (List (String × FieldVal))
  | [], names => .ok names
  | (k, v) :: rest, names =>
    match v with
    | .string field =>
      match mapGet MetaData k with
      | some MetaType.string => validateInsert MetaData rest (mapSet names k (.str field))
      | some MetaType.NullString => validateInsert MetaData rest (mapSet names k (.str field))
      | some _ => .error k
      | none => validateInsert MetaData rest names
    | .null =>
      match mapGet MetaData k with
      | some MetaType.NullString => validateInsert MetaData rest (mapSet names k .NullString)
      | some MetaType.NullInt32 => validateInsert MetaData rest (mapSet names k .NullInt32)
      | _ => .error k
    | _ => validateInsert MetaData rest names

/-- The statement text of the insert branch, from the column names `fs` and `params`. -/
def insertQuery (tableName : String) (fs params : List String) : String :=
  "INSERT INTO " ++ tableName ++ " (" ++ Join fs ++ ") VALUES (" ++ Join params ++ ")"

/-- The body of the loop of `CreateAndUpdate` for the table that matches the path. -/
def createAndUpdateTable (db : SqlDB) (r : Request) (tableName : String) (reWithID : List Char) :
    Outcome :=
  match r.Body with
  | .readError _ => ⟨[.query "SHOW TABLES"], [internalServerError], false⟩
  | .invalidJson _ => ⟨[.query "SHOW TABLES"], [internalServerError], false⟩
  | .notObject =>
    let query := "SELECT * FROM " ++ tableName
    match NewQuery db query with
    | .error _ => ⟨[.query "SHOW TABLES", .query query], [internalServerError], false⟩
    | .ok _ => ⟨[.query "SHOW TABLES", .query query], [], true⟩
  | .object data =>
    let query := "SELECT * FROM " ++ tableName
    match NewQuery db query with
    | .error _ => ⟨[.query "SHOW TABLES", .query query], [internalServerError], false⟩
    | .ok columns =>
      if matchSlashDigit reWithID then
        match (Split reWithID).get? 2 with
        | none => ⟨[.query "SHOW TABLES", .query query], [], true⟩
        | some ID =>
          match validateUpdate columns data [] with
          | .error k =>
            ⟨[.query "SHOW TABLES", .query query],
              [(400, .error ("field " ++ k ++ " have invalid type"))], false⟩
          | .ok f =>
            let fs := f.map (·.1)
            let values := fs.filterMap (fun v => mapGet f v)
            let update := "UPDATE " ++ tableName ++ " SET " ++ updateSetList fs ++
              ("WHERE " ++ columns.IDNameColumn ++ " = " ++ String.mk ID)
            match db.Exec update values with
            | .error _ =>
              ⟨[.query "SHOW TABLES", .query query, .exec update values],
                [internalServerError], false⟩
            | .ok res =>
              match res.RowsAffected with
              | .error _ =>
                ⟨[.query "SHOW TABLES", .query query, .exec update values],
                  [internalServerError], false⟩
              | .ok affected =>
                ⟨[.query "SHOW TABLES", .query query, .exec update values],
                  [(200, .updated affected)], false⟩
      else
        match validateInsert columns.MetaData data columns.NamesWithTypes with
        | .error k =>
          ⟨[.query "SHOW TABLES", .query query],
            [(400, .error ("field " ++ k ++ " have invalid type"))], false⟩
        | .ok names =>
          let fs := names.map (·.1)
          let params := names.map (fun _ => "?")
          let values := names.map (fun kv => FieldVal.str (fmtS kv.2))
          let insert := insertQuery tableName fs params
          match db.Exec insert values with
          | .error _ =>
            ⟨[.query "SHOW TABLES", .query query, .exec insert values],
              [internalServerError], false⟩
          | .ok res =>
            match res.LastInsertId with
            | .error _ =>
              ⟨[.query "SHOW TABLES", .query query, .exec insert values],
                [internalServerError], false⟩
            | .ok affected =>
              ⟨[.query "SHOW TABLES", .query query, .exec insert values],
                [(200, .inserted columns.IDNameColumn affected)], false⟩

/-- The loop over `tableNames` in `CreateAndUpdate`. -/
def createAndUpdateLoop (db : SqlDB) (r : Request) (reqTableName : String) (reWithID : List Char) :
    List String → Outcome
  | [] => ⟨[.query "SHOW TABLES"], [(200, .error "unknown table")], false⟩
  | tableName :: rest =>
    if tableName = reqTableName then createAndUpdateTable db r tableName reWithID
    else createAndUpdateLoop db r reqTableName reWithID rest

/-- The handler `CreateAndUpdate`. -/
def CreateAndUpdate (db : SqlDB) (r : Request) : Outcome :=
  match getTableNames db with
  | .error _ => ⟨[.query "SHOW TABLES"], [internalServerError], false⟩
  | .ok tableNames =>
    createAndUpdateLoop db r (reqTableNameOf r.Path) (reWithIDFind r.Path.data) tableNames

/-! ## Delete -/

/-- The loop over `tableNames` in `Delete`; a matching table without an id in the path lets
the loop go on, and the handler ends without writing anything. -/
def deleteLoop (db : SqlDB) (reqTableName : String) (reWithID : List Char) : List String → Outcome
  | [] => ⟨[.query "SHOW TABLES"], [], false⟩
  | tableName :: rest =>
    if tableName = reqTableName then
      if matchSlashDigit reWithID then
        match (Split reWithID).get? 2 with
        | none => ⟨[.query "SHOW TABLES"], [], true⟩
        | some ID =>
          let query := "DELETE FROM " ++ tableName ++ " WHERE id=" ++ String.mk ID
          match db.Exec query [] with
          | .error _ => ⟨[.query "SHOW TABLES", .exec query []], [internalServerError], false⟩
          | .ok result =>
            match result.RowsAffected with
            | .error _ => ⟨[.query "SHOW TABLES", .exec query []], [internalServerError], false⟩
            | .ok affected =>
              ⟨[.query "SHOW TABLES", .exec query []], [(200, .deleted affected)], false⟩
      else deleteLoop db reqTableName reWithID rest
    else deleteLoop db reqTableName reWithID rest

/-- The handler `Delete`. -/
def Delete (db : SqlDB) (r : Request) : Outcome :=
  match getTableNames db with
  | .error _ => ⟨[.query "SHOW TABLES"], [internalServerError], false⟩
  | .ok tableNames =>
    deleteLoop db (reqTableNameOf r.Path) (reWithIDRestFind r.Path.data) tableNames

/-- The method `ServeHTTP`. -/
def ServeHTTP (db : SqlDB) (r : Request) : Outcome :=
  if r.Method = "GET" then Read db r
  else if r.Method = "PUT" ∨ r.Method = "POST" then CreateAndUpdate db r
  else if r.Method = "DELETE" then Delete db r
  else ⟨[], [(404, .error "unknown table")], false⟩

/-! ## Reference notions used in the statements -/

/-- The kind a column is expected to be recorded as: text for `TEXT` and `VARCHAR`, integer
for `INT`, nullable or required after the driver's flag, and no kind for any other type. -/
def expectedKind (v : ColumnType) : Option MetaType :=
  if v.DatabaseTypeName = "TEXT" ∨ v.DatabaseTypeName = "VARCHAR" then
    if v.Nullable then some MetaType.NullString else some MetaType.string
  else if v.DatabaseTypeName = "INT" then
    if v.Nullable then some MetaType.NullInt32 else some MetaType.int32
  else none

/-- The integer-typed columns of a schema, in schema order. -/
def intColumns (cols : List ColumnType) : List ColumnType :=
  cols.filter (fun v => v.DatabaseTypeName = "INT")

/-- Whether a column of the given recorded kind takes a JSON string: the cases `*string` and
`*sql.NullString` of the type switches in `CreateAndUpdate`. -/
def acceptsText : Option MetaType → Bool
  | some MetaType.string => true
  | some MetaType.NullString => true
  | _ => false

/-- Whether a column of the given recorded kind takes a JSON null: the cases
`*sql.NullString` and `*sql.NullInt32` of the type switches in `CreateAndUpdate`. -/
def acceptsNull : Option MetaType → Bool
  | some MetaType.NullString => true
  | some MetaType.NullInt32 => true
  | _ => false

/-- A body field the update branch answers with `field <name> have invalid type`: a number,
a string for a column that is not text, or a null for a column that is not nullable. -/
def invalidForUpdate (kind : Option MetaType) : JsonField → Bool
  | .number _ => true
  | .string _ => !acceptsText kind
  | .null => !acceptsNull kind
  | .other => false

/-- A body field the insert branch enters into the statement: a string for a text column
or a null for a nullable column. -/
def acceptedOnInsert (kind : Option MetaType) : JsonField → Bool
  | .string _ => acceptsText kind
  | .null => acceptsNull kind
  | _ => false

/-- The value the insert branch enters into `NamesWithTypes` for an accepted body field: the
string itself, or the zero struct of the column's nullable type for a null. -/
def insertValue (kind : Option MetaType) : JsonField → FieldVal
  | .string s => FieldVal.str s
  | _ => if kind = some MetaType.NullInt32 then FieldVal.NullInt32 else FieldVal.NullString

/-! ## Sample databases -/

/-- Schema of a table `items`: one integer column and two text columns. -/
def itemsColumns : List ColumnType :=
  [⟨"id", "INT", false⟩, ⟨"title", "VARCHAR", false⟩, ⟨"description", "TEXT", true⟩]

/-- Schema of a table `users` whose integer column is called `user_id`. -/
def usersColumns : List ColumnType :=
  [⟨"user_id", "INT", false⟩, ⟨"login", "VARCHAR", false⟩, ⟨"info", "TEXT", true⟩]

/-- Schema of a table `scores` with two integer columns and a column of another type. -/
def scoresColumns : List ColumnType :=
  [⟨"id", "INT", false⟩, ⟨"points", "INT", true⟩, ⟨"taken", "DATETIME", false⟩]

/-- A database with the single table `name`, holding `rows` under the schema `cols`; every
statement other than `SHOW TABLES` is answered with that table, and every `Exec` reports one
affected row and the new id 3. -/
def singleTableDB (name : String) (cols : List ColumnType) (rows : List (List DriverValue)) : SqlDB where
  Query := fun q =>
    if q = "SHOW TABLES" then .ok ⟨none, [⟨"Tables_in_db", "VARCHAR", false⟩], [[.text name]]⟩
    else .ok ⟨none, cols, rows⟩
  Exec := fun _ _ => .ok ⟨.ok 1, .ok 3⟩

/-- Two rows of the table `items`; the second has no description. -/
def itemsRows : List (List DriverValue) :=
  [[.int 1, .text "database/sql", .text "Rows and Scan"], [.int 2, .text "memcache", .null]]

/-- The table `items` with two rows. -/
def itemsDB : SqlDB := singleTableDB "items" itemsColumns itemsRows

/-- The table `users` with one row. -/
def usersDB : SqlDB :=
  singleTableDB "users" usersColumns [[.int 1, .text "rvasily", .null]]

/-- The table `scores` with one row. -/
def scoresDB : SqlDB :=
  singleTableDB "scores" scoresColumns [[.int 1, .int 10, .text "2019-01-01"]]

/-! ## Facts about maps -/

theorem mapGet_mapSet {V : Type} (m : List (String × V)) (k k' : String) (v : V) :
    mapGet (mapSet m k v) k' = if k = k' then some v else mapGet m k' := by
  induction m with
  | nil => simp [mapSet, mapGet]
  | cons hd tl ih =>
    obtain ⟨a, b⟩ := hd
    by_cases h : a = k
    · subst h
      by_cases h2 : a = k' <;> simp [mapSet, mapGet, h2]
    · by_cases h2 : k = k'
      · subst h2
        simp [mapSet, mapGet, h, ih]
      · by_cases h3 : a = k'
        · subst h3
          simp [mapSet, mapGet, h, h2]
        · simp [mapSet, mapGet, h, h2, h3, ih]

theorem mem_keys_mapSet {V : Type} (m : List (String × V)) (k k' : String) (v : V) :
    k' ∈ (mapSet m k v).map (·.1) ↔ k' = k ∨ k' ∈ m.map (·.1) := by
  induction m with
  | nil => simp [mapSet]
  | cons hd tl ih =>
    obtain ⟨a, b⟩ := hd
    by_cases h : a = k
    · subst h
      simp [mapSet]
    · simp only [mapSet, h, if_false, List.map_cons, List.mem_cons, ih]
      tauto

/-! ## NewQuery -/

theorem describeColumn_MetaData (c : Columns) (v : ColumnType) :
    (describeColumn c v).MetaData =
      match expectedKind v with
      | some t => mapSet c.MetaData v.Name t
      | none => c.MetaData := by
  unfold describeColumn expectedKind
  split_ifs <;> rfl

theorem foldl_describeColumn_MetaData_of_not_mem (cols : List ColumnType) (c : Columns)
    (k : String) (hk : k ∉ cols.map (·.Name)) :
    mapGet (cols.foldl describeColumn c).MetaData k = mapGet c.MetaData k := by
  induction cols generalizing c with
  | nil => rfl
  | cons v tl ih =>
    simp only [List.map_cons, List.mem_cons, not_or] at hk
    rw [List.foldl_cons, ih _ hk.2, describeColumn_MetaData]
    cases h : expectedKind v with
    | none => rfl
    | some t =>
      simp only [mapGet_mapSet]
      rw [if_neg (fun h2 => hk.1 h2.symm)]

theorem foldl_describeColumn_MetaData (cols : List ColumnType) (c : Columns)
    (hnodup : (cols.map (·.Name)).Nodup) (v : ColumnType) (hv : v ∈ cols) :
    mapGet (cols.foldl describeColumn c).MetaData v.Name =
      match expectedKind v with
      | some t => some t
      | none => mapGet c.MetaData v.Name := by
  induction cols generalizing c with
  | nil => simp at hv
  | cons w tl ih =>
    simp only [List.map_cons, List.nodup_cons] at hnodup
    rw [List.foldl_cons]
    rcases List.mem_cons.mp hv with h | h
    · subst h
      rw [foldl_describeColumn_MetaData_of_not_mem _ _ _ hnodup.1, describeColumn_MetaData]
      cases h : expectedKind v with
      | none => rfl
      | some t => simp [mapGet_mapSet]
    · rw [ih _ hnodup.2 h]
      have hne : w.Name ≠ v.Name := by
        intro heq
        apply hnodup.1
        rw [heq]
        exact List.mem_map_of_mem _ h
      cases h2 : expectedKind v with
      | some t => rfl
      | none =>
        simp only [describeColumn_MetaData]
        cases h3 : expectedKind w with
        | none => rfl
        | some t => simp [mapGet_mapSet, hne]

/-- With an open result set the row loop of `NewQuery` returns, and its result is the column
pass repeated once per row. -/
theorem newQueryLoop_ok (result : Rows) (hc : result.closedErr = none)
    (rows : List (List DriverValue)) (c : Columns) :
    newQueryLoop result rows c =
      .ok (rows.foldl (fun acc _ => result.columnTypes.foldl describeColumn acc) c) := by
  induction rows generalizing c with
  | nil => rfl
  | cons r tl ih =>
    simp only [newQueryLoop, Rows.ColumnTypes, hc, List.foldl_cons]
    exact ih _

/-- A property of `Columns` that one column pass establishes from the empty start and every
further pass keeps holds after the row loop over a non-empty list of rows. -/
theorem rows_foldl_invariant (cols : List ColumnType) (P : Columns → Prop)
    (hstep : ∀ c, (c = ⟨[], [], ""⟩ ∨ P c) → P (cols.foldl describeColumn c))
    (rows : List (List DriverValue)) (hrows : rows ≠ []) :
    P (rows.foldl (fun acc _ => cols.foldl describeColumn acc) ⟨[], [], ""⟩) := by
  have key : ∀ (rs : List (List DriverValue)) (c : Columns), P c →
      P (rs.foldl (fun acc _ => cols.foldl describeColumn acc) c) := by
    intro rs
    induction rs with
    | nil => intro c hc; exact hc
    | cons r tl ih => intro c hc; exact ih _ (hstep c (Or.inr hc))
  cases rows with
  | nil => exact absurd rfl hrows
  | cons r tl => exact key tl _ (hstep _ (Or.inl rfl))

/-- C1: for a table whose metadata query returns at least one row, `NewQuery` returns, and
every column is recorded in `MetaData` under its name as nullable or required text for
`TEXT`/`VARCHAR`, as nullable or required integer for `INT`, following the driver's
nullability flag, while a column of any other type has no entry. -/
theorem C1_schema_type_mapping (db : SqlDB) (query : String) (result : Rows)
    (hq : db.Query query = .ok result) (hopen : result.closedErr = none)
    (hrows : result.rows ≠ [])
    (hnodup : (result.columnTypes.map (·.Name)).Nodup) :
    ∃ columns, NewQuery db query = .ok columns ∧
      ∀ v ∈ result.columnTypes, mapGet columns.MetaData v.Name = expectedKind v := by
  refine ⟨result.rows.foldl (fun acc _ => result.columnTypes.foldl describeColumn acc)
    ⟨[], [], ""⟩, ?_, ?_⟩
  · simp only [NewQuery, hq]
    exact newQueryLoop_ok result hopen _ _
  · apply rows_foldl_invariant result.columnTypes
      (fun c => ∀ v ∈ result.columnTypes, mapGet c.MetaData v.Name = expectedKind v) _ _ hrows
    intro c hc v hv
    rw [foldl_describeColumn_MetaData _ _ hnodup v hv]
    cases h : expectedKind v with
    | some t => rfl
    | none =>
      rcases hc with hc | hc
      · subst hc; rfl
      · rw [hc v hv, h]

/-- C1 (witness): the table `scores`, with a required `INT`, a nullable `INT` and a `DATETIME`
column and one row. -/
theorem C1_schema_type_mapping_witness :
    ∃ columns, NewQuery scoresDB "SELECT * FROM scores" = .ok columns ∧
      ∀ v ∈ scoresColumns, mapGet columns.MetaData v.Name = expectedKind v :=
  C1_schema_type_mapping scoresDB "SELECT * FROM scores" ⟨none, scoresColumns, _⟩ rfl rfl
    (by simp) (by decide)

theorem describeColumn_IDNameColumn (c : Columns) (v : ColumnType) :
    (describeColumn c v).IDNameColumn =
      if v.DatabaseTypeName = "INT" then v.Name else c.IDNameColumn := by
  unfold describeColumn
  by_cases h : v.DatabaseTypeName = "INT"
  · have h1 : ¬(v.DatabaseTypeName = "TEXT" ∨ v.DatabaseTypeName = "VARCHAR") := by
      rw [h]; decide
    rw [if_neg h1, if_pos h, if_pos h]
    split_ifs <;> rfl
  · rw [if_neg h, if_neg h]
    split_ifs <;> rfl

theorem foldl_describeColumn_IDNameColumn (cols : List ColumnType) (c : Columns) :
    (cols.foldl describeColumn c).IDNameColumn =
      (((intColumns cols).getLast?).map (·.Name)).getD c.IDNameColumn := by
  induction cols generalizing c with
  | nil => rfl
  | cons w tl ih =>
    rw [List.foldl_cons, ih, describeColumn_IDNameColumn]
    unfold intColumns
    rw [List.filter_cons]
    by_cases h : w.DatabaseTypeName = "INT"
    · simp only [h, decide_True, if_true, List.getLast?_cons]
      cases (List.filter (fun v => decide (v.DatabaseTypeName = "INT")) tl).getLast? <;> rfl
    · simp only [h, decide_False, if_false]
      rfl

/-- C2 (amended): for a table whose metadata query returns at least one row and that has an
integer-typed (`INT`) column, the identity column name `NewQuery` returns is the name of
the last `INT` column in schema order. -/
theorem C2_identity_is_last_int_column (db : SqlDB) (query : String) (result : Rows)
    (hq : db.Query query = .ok result) (hopen : result.closedErr = none)
    (hrows : result.rows ≠ []) (v : ColumnType)
    (hv : (intColumns result.columnTypes).getLast? = some v) :
    ∃ columns, NewQuery db query = .ok columns ∧ columns.IDNameColumn = v.Name := by
  refine ⟨result.rows.foldl (fun acc _ => result.columnTypes.foldl describeColumn acc)
    ⟨[], [], ""⟩, ?_, ?_⟩
  · simp only [NewQuery, hq]
    exact newQueryLoop_ok result hopen _ _
  · apply rows_foldl_invariant result.columnTypes (fun c => c.IDNameColumn = v.Name) _ _ hrows
    intro c _
    rw [foldl_describeColumn_IDNameColumn, hv]
    rfl

/-- C2 (witness): the table `scores`, whose last `INT` column is `points`. -/
theorem C2_identity_is_last_int_column_witness :
    ∃ columns, NewQuery scoresDB "SELECT * FROM scores" = .ok columns ∧
      columns.IDNameColumn = "points" :=
  C2_identity_is_last_int_column scoresDB "SELECT * FROM scores" ⟨none, scoresColumns, _⟩
    rfl rfl (by simp) ⟨"points", "INT", true⟩ (by decide)

/-- C2 (counterexample): the table `scores` has the integer columns `id` and `points`, in
this order; described from one row, `NewQuery` returns `points`, not the first one, as
identity column name, and described from no row it returns the empty name. -/
theorem C2_first_int_column_counterexample :
    (intColumns scoresColumns).head? = some ⟨"id", "INT", false⟩ ∧
      (NewQuery scoresDB "SELECT * FROM scores").toOption.map (·.IDNameColumn) = some "points" ∧
      "points" ≠ "id" ∧
      (NewQuery (singleTableDB "scores" scoresColumns []) "SELECT * FROM scores").toOption.map
        (·.IDNameColumn) = some "" ∧
      "" ≠ "id" := by
  refine ⟨by decide, by decide, by decide, by decide, by decide⟩

/-- C10: when the metadata query returns no row, `NewQuery` returns an empty `MetaData`, an
empty `NamesWithTypes` and the empty identity column name, whatever the columns are. -/
theorem C10_empty_table_description (db : SqlDB) (query : String) (result : Rows)
    (hq : db.Query query = .ok result) (hrows : result.rows = []) :
    NewQuery db query = .ok ⟨[], [], ""⟩ := by
  simp only [NewQuery, hq, hrows, newQueryLoop]

/-- C10 (witness): the table `items` without rows. -/
theorem C10_empty_table_description_witness :
    NewQuery (singleTableDB "items" itemsColumns []) "SELECT * FROM items" = .ok ⟨[], [], ""⟩ :=
  C10_empty_table_description (singleTableDB "items" itemsColumns []) "SELECT * FROM items"
    ⟨none, itemsColumns, []⟩ rfl rfl

/-! ## getDataFromDB -/

theorem scanLoop_returns (result : Rows) (hopen : result.closedErr = none)
    (rows : List (List DriverValue)) (acc : List (List (String × Scanned)))
    (hscan : ∀ row ∈ rows, ∃ data, scanRow (result.columnTypes.map allocDest) row = .ok data) :
    ∃ out, scanLoop result rows acc = .ok out := by
  induction rows generalizing acc with
  | nil => exact ⟨acc, rfl⟩
  | cons row rest ih =>
    obtain ⟨data, hd⟩ := hscan row (List.mem_cons_self _ _)
    simp only [scanLoop, Rows.Columns, Rows.ColumnTypes, hopen, hd]
    exact ih _ (fun r hr => hscan r (List.mem_cons_of_mem _ hr))

/-- When every row of an open result set is accepted by `Scan`, `getDataFromDB` returns its
list of Records. -/
theorem getDataFromDB_returns (db : SqlDB) (query : String) (result : Rows)
    (hq : db.Query query = .ok result) (hopen : result.closedErr = none)
    (hscan : ∀ row ∈ result.rows,
      ∃ data, scanRow (result.columnTypes.map allocDest) row = .ok data) :
    ∃ records, getDataFromDB db query = .ok records := by
  obtain ⟨out, hout⟩ := scanLoop_returns result hopen result.rows [] hscan
  exact ⟨out.map (fun oneSet => oneSet.map (fun kv => (kv.1, unwrap kv.2))),
    by simp only [getDataFromDB, hq, hout]⟩

theorem readLoop_of_mem (db : SqlDB) (r : Request) (t : String) (ID : List (List Char))
    (tableNames : List String) (h : t ∈ tableNames) :
    readLoop db r t ID tableNames = readTable db r t ID := by
  induction tableNames with
  | nil => simp at h
  | cons a tl ih =>
    by_cases ha : a = t
    · subst ha
      simp only [readLoop, if_true]
    · simp only [readLoop, if_neg ha]
      rcases List.mem_cons.mp h with h | h
      · exact absurd h.symm ha
      · exact ih h

theorem readLoop_of_not_mem (db : SqlDB) (r : Request) (t : String) (ID : List (List Char))
    (tableNames : List String) (h : t ∉ tableNames) :
    readLoop db r t ID tableNames =
      ⟨[.query "SHOW TABLES"], [(404, .error "unknown table")], false⟩ := by
  induction tableNames with
  | nil => rfl
  | cons a tl ih =>
    simp only [List.mem_cons, not_or] at h
    have ha : ¬a = t := fun h2 => h.1 h2.symm
    simp only [readLoop, if_neg ha]
    exact ih h.2

theorem isExistsParam_eq (r : Request) (key : String) :
    isExistsParam r key = !decide (r.FormValue key = "") := by
  unfold isExistsParam
  cases h : r.FormValue key with
  | mk data =>
    cases data with
    | nil => rfl
    | cons c cs =>
      have : (String.mk (c :: cs)) ≠ "" := by
        intro h2
        have := congrArg String.data h2
        simp at this
      simp [this, String.length]

/-- The statement of the branch of `Read` without an id, written out: the `WHERE` part is
there exactly when `offset` is non-empty and the `LIMIT` part exactly when `limit` is. -/
theorem readAllQuery_eq (r : Request) (query : String) (columns : Columns) :
    readAllQuery r query columns =
      query ++
        (if r.FormValue "offset" = "" then ""
          else "WHERE " ++ columns.IDNameColumn ++ " > " ++
            fmtD ((Atoi (r.FormValue "offset")).getD 0) ++ " ") ++
        (if r.FormValue "limit" = "" then ""
          else "LIMIT " ++ fmtD ((Atoi (r.FormValue "limit")).getD 5)) := by
  unfold readAllQuery
  simp only [isExistsParam_eq]
  by_cases ho : r.FormValue "offset" = "" <;> by_cases hl : r.FormValue "limit" = ""
  · simp [ho, hl]
  · simp only [ho, hl, decide_True, decide_False, Bool.not_true, Bool.not_false, if_true,
      if_false, Bool.false_eq_true, String.append_empty]
    cases Atoi (r.FormValue "limit") <;> rfl
  · simp only [ho, hl, decide_True, decide_False, Bool.not_true, Bool.not_false, if_true,
      if_false, Bool.false_eq_true, String.append_empty]
    cases Atoi (r.FormValue "offset") <;> rfl
  · simp only [ho, hl, decide_False, Bool.not_false, if_true, if_false]
    cases Atoi (r.FormValue "offset") <;> cases Atoi (r.FormValue "limit") <;> rfl

/-- C6 (amended): for a known table with identity column `c` and a path without id part,
the statement `Read` hands to the database is `SELECT * FROM <table> `, followed by
`WHERE c > o ` exactly when the `offset` parameter is present and non-empty (`o` its integer
value, 0 when it is not a valid integer), followed by `LIMIT l` exactly when the `limit`
parameter is present and non-empty (`l` its integer value, 5 when it is not a valid
integer); a missing parameter adds no clause. -/
theorem C6_select_all_statement (db : SqlDB) (r : Request) (tableNames : List String)
    (columns : Columns)
    (htables : getTableNames db = .ok tableNames)
    (hpath : r.Path ≠ "/")
    (hknown : reqTableNameOf r.Path ∈ tableNames)
    (hnoid : (Split (reWithIDFind r.Path.data)).length ≤ 1)
    (hnq : NewQuery db ("SELECT * FROM " ++ reqTableNameOf r.Path ++ " ") = .ok columns) :
    (Read db r).calls =
      [.query "SHOW TABLES", .query ("SELECT * FROM " ++ reqTableNameOf r.Path ++ " "),
        .query ("SELECT * FROM " ++ reqTableNameOf r.Path ++ " " ++
          (if r.FormValue "offset" = "" then ""
            else "WHERE " ++ columns.IDNameColumn ++ " > " ++
              fmtD ((Atoi (r.FormValue "offset")).getD 0) ++ " ") ++
          (if r.FormValue "limit" = "" then ""
            else "LIMIT " ++ fmtD ((Atoi (r.FormValue "limit")).getD 5)))] := by
  unfold Read
  simp only [htables, if_neg hpath]
  rw [readLoop_of_mem _ _ _ _ _ hknown]
  unfold readTable
  simp only [hnq, if_neg (Nat.not_lt.mpr hnoid)]
  rw [readAllQuery_eq]
  cases getDataFromDB db _ <;> rfl

/-- C6 (witness): `GET /items` with `offset=1` and an invalid `limit`. -/
theorem C6_select_all_statement_witness :
    (Read itemsDB ⟨"GET", "/items", [("limit", "many"), ("offset", "1")], .notObject⟩).calls =
      [.query "SHOW TABLES", .query "SELECT * FROM items ",
        .query "SELECT * FROM items WHERE id > 1 LIMIT 5"] :=
  C6_select_all_statement itemsDB ⟨"GET", "/items", [("limit", "many"), ("offset", "1")], .notObject⟩
    ["items"] ⟨[("id", .int32), ("title", .string), ("description", .NullString)],
      [("title", .str "")], "id"⟩ rfl (by decide) (by decide) (by decide) rfl

/-- C6 (counterexample): a request for `/items` without `offset` and `limit` parameters
makes `Read` issue `SELECT * FROM items ` with neither a `WHERE id > 0` nor a `LIMIT 5`
part. -/
theorem C6_missing_parameters_counterexample :
    (Read itemsDB ⟨"GET", "/items", [], .notObject⟩).calls =
      [.query "SHOW TABLES", .query "SELECT * FROM items ", .query "SELECT * FROM items "] := by
  decide

/-! ## Path parsing -/

theorem Split_of_no_slash (l : List Char) (h : ∀ c ∈ l, c ≠ '/') : Split l = [l] := by
  induction l with
  | nil => rfl
  | cons a tl ih =>
    have ha : a ≠ '/' := h a (List.mem_cons_self _ _)
    have ht : ∀ c ∈ tl, c ≠ '/' := fun c hc => h c (List.mem_cons_of_mem _ hc)
    simp only [Split, if_neg ha, ih ht]

theorem Split_append_slash (w rest : List Char) (h : ∀ c ∈ w, c ≠ '/') :
    Split (w ++ '/' :: rest) = w :: Split rest := by
  induction w with
  | nil => simp [Split]
  | cons a tl ih =>
    have ha : a ≠ '/' := h a (List.mem_cons_self _ _)
    have ht : ∀ c ∈ tl, c ≠ '/' := fun c hc => h c (List.mem_cons_of_mem _ hc)
    have e : Split (a :: (tl ++ '/' :: rest)) =
        match Split (tl ++ '/' :: rest) with
        | [] => [[a]]
        | p :: ps => (a :: p) :: ps := by
      simp only [Split, if_neg ha]
    rw [List.cons_append, e, ih ht]

theorem ne_slash_of_isWord (c : Char) (h : isWord c = true) : c ≠ '/' := by
  intro hc
  subst hc
  exact absurd h (by decide)

theorem ne_slash_of_isDigit (c : Char) (h : isDigit c = true) : c ≠ '/' := by
  intro hc
  subst hc
  exact absurd h (by decide)

/-- A match of `/[\w]*/[\d]*` is empty or is a slash, word characters, a slash and digits. -/
theorem reWithIDFind_shape (cs : List Char) :
    reWithIDFind cs = [] ∨
      ∃ w d, reWithIDFind cs = '/' :: (w ++ '/' :: d) ∧
        (∀ c ∈ w, isWord c = true) ∧ (∀ c ∈ d, isDigit c = true) := by
  induction cs with
  | nil => exact Or.inl rfl
  | cons a tl ih =>
    unfold reWithIDFind
    by_cases ha : a = '/'
    · rw [if_pos ha]
      cases hd : tl.dropWhile isWord with
      | nil => exact ih
      | cons d tail =>
        by_cases hs : d = '/'
        · simp only [if_pos hs]
          exact Or.inr ⟨tl.takeWhile isWord, tail.takeWhile isDigit, rfl,
            fun c hc => List.mem_takeWhile_imp hc, fun c hc => List.mem_takeWhile_imp hc⟩
        · simp only [if_neg hs]
          exact ih
    · rw [if_neg ha]
      exact ih

/-- When the test for `/[\d].*` succeeds on a match of `/[\w]*/[\d]*`, the third part of the
split exists (the index expression `[2]` does not panic) and consists of digits. -/
theorem Split_reWithIDFind (cs : List Char) (h : matchSlashDigit (reWithIDFind cs) = true) :
    ∃ ID, (Split (reWithIDFind cs)).get? 2 = some ID ∧ ∀ c ∈ ID, isDigit c = true := by
  rcases reWithIDFind_shape cs with h0 | ⟨w, d, hw, hword, hdigit⟩
  · rw [h0] at h
    simp [matchSlashDigit] at h
  · refine ⟨d, ?_, hdigit⟩
    rw [hw]
    have h1 : Split ('/' :: (w ++ '/' :: d)) = [] :: Split (w ++ '/' :: d) := by
      simp [Split]
    rw [h1, Split_append_slash w d (fun c hc => ne_slash_of_isWord c (hword c hc)),
      Split_of_no_slash d (fun c hc => ne_slash_of_isDigit c (hdigit c hc))]
    rfl

/-! ## CreateAndUpdate -/

theorem createAndUpdateLoop_of_mem (db : SqlDB) (r : Request) (t : String) (reWithID : List Char)
    (tableNames : List String) (h : t ∈ tableNames) :
    createAndUpdateLoop db r t reWithID tableNames = createAndUpdateTable db r t reWithID := by
  induction tableNames with
  | nil => simp at h
  | cons a tl ih =>
    by_cases ha : a = t
    · subst ha
      simp only [createAndUpdateLoop, if_true]
    · simp only [createAndUpdateLoop, if_neg ha]
      rcases List.mem_cons.mp h with h | h
      · exact absurd h.symm ha
      · exact ih h

theorem createAndUpdateLoop_of_not_mem (db : SqlDB) (r : Request) (t : String)
    (reWithID : List Char) (tableNames : List String) (h : t ∉ tableNames) :
    createAndUpdateLoop db r t reWithID tableNames =
      ⟨[.query "SHOW TABLES"], [(200, .error "unknown table")], false⟩ := by
  induction tableNames with
  | nil => rfl
  | cons a tl ih =>
    simp only [List.mem_cons, not_or] at h
    have ha : ¬a = t := fun h2 => h.1 h2.symm
    simp only [createAndUpdateLoop, if_neg ha]
    exact ih h.2

/-- The validation loop of the update branch, on a body that holds a number, stops at the
first field in visiting order that is invalid for the update. -/
theorem validateUpdate_of_number (columns : Columns) (data : List (String × JsonField))
    (f : List (String × FieldVal)) (hnum : ∃ k x, (k, JsonField.number x) ∈ data) :
    ∃ pre k val post, data = pre ++ (k, val) :: post ∧
      (∀ p ∈ pre, invalidForUpdate (mapGet columns.MetaData p.1) p.2 = false) ∧
      invalidForUpdate (mapGet columns.MetaData k) val = true ∧
      validateUpdate columns data f = .error k := by
  induction data generalizing f with
  | nil =>
    obtain ⟨k, x, h⟩ := hnum
    simp at h
  | cons hd tl ih =>
    obtain ⟨k, v⟩ := hd
    have lift : ∀ f', invalidForUpdate (mapGet columns.MetaData k) v = false →
        (∃ k x, (k, JsonField.number x) ∈ tl) →
        ∃ pre k' val post, (k, v) :: tl = pre ++ (k', val) :: post ∧
          (∀ p ∈ pre, invalidForUpdate (mapGet columns.MetaData p.1) p.2 = false) ∧
          invalidForUpdate (mapGet columns.MetaData k') val = true ∧
          validateUpdate columns tl f' = .error k' := by
      intro f' hvalid h
      obtain ⟨pre, k', val, post, h1, h2, h3, h4⟩ := ih f' h
      refine ⟨(k, v) :: pre, k', val, post, by rw [h1]; rfl, ?_, h3, h4⟩
      intro p hp
      rcases List.mem_cons.mp hp with hp | hp
      · rw [hp]; exact hvalid
      · exact h2 p hp
    have stop : invalidForUpdate (mapGet columns.MetaData k) v = true →
        validateUpdate columns ((k, v) :: tl) f = .error k →
        ∃ pre k' val post, (k, v) :: tl = pre ++ (k', val) :: post ∧
          (∀ p ∈ pre, invalidForUpdate (mapGet columns.MetaData p.1) p.2 = false) ∧
          invalidForUpdate (mapGet columns.MetaData k') val = true ∧
          validateUpdate columns ((k, v) :: tl) f = .error k' :=
      fun hinv herr => ⟨[], k, v, tl, rfl, fun p hp => by simp at hp, hinv, herr⟩
    have rest : ∀ (_ : ∀ x, v ≠ JsonField.number x), ∃ k x, (k, JsonField.number x) ∈ tl := by
      intro hv
      obtain ⟨k', x, h⟩ := hnum
      rcases List.mem_cons.mp h with h | h
      · exact absurd (Prod.mk.inj h).2.symm (hv x)
      · exact ⟨k', x, h⟩
    cases v with
    | number x => exact stop rfl rfl
    | other =>
      simp only [validateUpdate]
      exact lift _ rfl (rest (fun x => by simp))
    | string s =>
      have hr := rest (fun x => by simp)
      cases hm : mapGet columns.MetaData k with
      | none =>
        exact stop (by simp [invalidForUpdate, acceptsText, hm]) (by simp [validateUpdate, hm])
      | some t =>
        cases t with
        | string =>
          simp only [validateUpdate, hm]
          exact lift _ (by simp [invalidForUpdate, acceptsText, hm]) hr
        | NullString =>
          simp only [validateUpdate, hm]
          exact lift _ (by simp [invalidForUpdate, acceptsText, hm]) hr
        | int32 =>
          exact stop (by simp [invalidForUpdate, acceptsText, hm]) (by simp [validateUpdate, hm])
        | NullInt32 =>
          exact stop (by simp [invalidForUpdate, acceptsText, hm]) (by simp [validateUpdate, hm])
    | null =>
      have hr := rest (fun x => by simp)
      cases hm : mapGet columns.MetaData k with
      | none =>
        exact stop (by simp [invalidForUpdate, acceptsNull, hm]) (by simp [validateUpdate, hm])
      | some t =>
        cases t with
        | NullString =>
          simp only [validateUpdate, hm]
          exact lift _ (by simp [invalidForUpdate, acceptsNull, hm]) hr
        | NullInt32 =>
          simp only [validateUpdate, hm]
          exact lift _ (by simp [invalidForUpdate, acceptsNull, hm]) hr
        | int32 =>
          exact stop (by simp [invalidForUpdate, acceptsNull, hm]) (by simp [validateUpdate, hm])
        | string =>
          exact stop (by simp [invalidForUpdate, acceptsNull, hm]) (by simp [validateUpdate, hm])

theorem ServeHTTP_write (db : SqlDB) (r : Request) (h : r.Method = "PUT" ∨ r.Method = "POST") :
    ServeHTTP db r = CreateAndUpdate db r := by
  unfold ServeHTTP
  have hg : r.Method ≠ "GET" := by
    rcases h with h | h <;> rw [h] <;> decide
  rw [if_neg hg, if_pos h]

/-- C4 (amended): for a `PUT` or `POST` request on a known table whose path carries a row
id and whose body is a JSON object holding a number, the answer is HTTP 400 with
`field <name> have invalid type`, where `<name>` is the first field of the body, in visiting
order, that is invalid for the update (a number, a string for a non-text column or a null
for a non-nullable column), and no `Exec` is issued: the only database calls are the two
metadata queries. -/
theorem C4_update_rejects_number (db : SqlDB) (r : Request) (tableNames : List String)
    (columns : Columns) (data : List (String × JsonField))
    (hmethod : r.Method = "PUT" ∨ r.Method = "POST")
    (htables : getTableNames db = .ok tableNames)
    (hknown : reqTableNameOf r.Path ∈ tableNames)
    (hid : matchSlashDigit (reWithIDFind r.Path.data) = true)
    (hbody : r.Body = Body.object data)
    (hnq : NewQuery db ("SELECT * FROM " ++ reqTableNameOf r.Path) = .ok columns)
    (hnum : ∃ k x, (k, JsonField.number x) ∈ data) :
    ∃ pre k val post, data = pre ++ (k, val) :: post ∧
      (∀ p ∈ pre, invalidForUpdate (mapGet columns.MetaData p.1) p.2 = false) ∧
      invalidForUpdate (mapGet columns.MetaData k) val = true ∧
      ServeHTTP db r =
        ⟨[.query "SHOW TABLES", .query ("SELECT * FROM " ++ reqTableNameOf r.Path)],
          [(400, .error ("field " ++ k ++ " have invalid type"))], false⟩ := by
  obtain ⟨pre, k, val, post, hsplit, hpre, hinv, herr⟩ :=
    validateUpdate_of_number columns data [] hnum
  obtain ⟨ID, hID, _⟩ := Split_reWithIDFind r.Path.data hid
  refine ⟨pre, k, val, post, hsplit, hpre, hinv, ?_⟩
  rw [ServeHTTP_write db r hmethod]
  unfold CreateAndUpdate
  simp only [htables]
  rw [createAndUpdateLoop_of_mem _ _ _ _ _ hknown]
  unfold createAndUpdateTable
  simp only [hbody, hnq, hid, if_true, hID, herr]

/-- C4 (witness): `PUT /items/1` with the valid text field `description` visited before the
number field `title`. -/
theorem C4_update_rejects_number_witness :
    ∃ pre k val post,
      [("description", JsonField.string "x"), ("title", JsonField.number 42)] =
        pre ++ (k, val) :: post ∧
      (∀ p ∈ pre, invalidForUpdate (mapGet [("id", MetaType.int32), ("title", MetaType.string),
        ("description", MetaType.NullString)] p.1) p.2 = false) ∧
      invalidForUpdate (mapGet [("id", MetaType.int32), ("title", MetaType.string),
        ("description", MetaType.NullString)] k) val = true ∧
      ServeHTTP itemsDB ⟨"PUT", "/items/1", [],
          .object [("description", .string "x"), ("title", .number 42)]⟩ =
        ⟨[.query "SHOW TABLES", .query "SELECT * FROM items"],
          [(400, .error ("field " ++ k ++ " have invalid type"))], false⟩ :=
  C4_update_rejects_number itemsDB
    ⟨"PUT", "/items/1", [], .object [("description", .string "x"), ("title", .number 42)]⟩
    ["items"] ⟨[("id", .int32), ("title", .string), ("description", .NullString)],
      [("title", .str "")], "id"⟩ [("description", .string "x"), ("title", .number 42)]
    (by decide) rfl (by decide) (by decide) rfl rfl ⟨"title", 42, by decide⟩

/-- C4 (counterexample): on the table `items`, a `PUT /items/1` whose body holds the string
field `id`, visited before the number field `title`, is answered with an error naming `id`, a field
that holds no number; and a `POST /items` whose body holds the number field `title` is
answered with HTTP 200 after the `INSERT` was executed. -/
theorem C4_number_field_counterexample :
    ServeHTTP itemsDB
        ⟨"PUT", "/items/1", [], .object [("id", .string "x"), ("title", .number 42)]⟩ =
      ⟨[.query "SHOW TABLES", .query "SELECT * FROM items"],
        [(400, .error "field id have invalid type")], false⟩ ∧
    ServeHTTP itemsDB ⟨"POST", "/items", [], .object [("title", .number 42)]⟩ =
      ⟨[.query "SHOW TABLES", .query "SELECT * FROM items",
        .exec "INSERT INTO items (title) VALUES (?)" [.str ""]],
        [(200, .inserted "id" 3)], false⟩ := by
  decide

/-! ## The insert branch -/

theorem nodup_keys_mapSet {V : Type} (m : List (String × V)) (k : String) (v : V)
    (h : (m.map (·.1)).Nodup) : ((mapSet m k v).map (·.1)).Nodup := by
  induction m with
  | nil => simp [mapSet]
  | cons hd tl ih =>
    obtain ⟨a, b⟩ := hd
    simp only [List.map_cons, List.nodup_cons] at h
    by_cases ha : a = k
    · subst ha
      simp only [mapSet, if_true, List.map_cons, List.nodup_cons]
      exact h
    · simp only [mapSet, if_neg ha, List.map_cons, List.nodup_cons]
      refine ⟨?_, ih h.2⟩
      intro hmem
      rcases (mem_keys_mapSet tl k a v).mp hmem with h1 | h1
      · exact ha h1
      · exact h.1 h1

theorem describeColumn_NamesWithTypes (c : Columns) (v : ColumnType) :
    (describeColumn c v).NamesWithTypes =
      if expectedKind v = some MetaType.string then mapSet c.NamesWithTypes v.Name (.str "")
      else c.NamesWithTypes := by
  unfold describeColumn expectedKind
  by_cases ht : v.DatabaseTypeName = "TEXT" ∨ v.DatabaseTypeName = "VARCHAR"
  · simp only [if_pos ht]
    cases v.Nullable <;> simp
  · simp only [if_neg ht]
    by_cases hi : v.DatabaseTypeName = "INT"
    · simp only [if_pos hi]
      cases v.Nullable <;> simp
    · simp [if_neg hi]

theorem foldl_describeColumn_NamesWithTypes (cols : List ColumnType) (c : Columns)
    (hc : (c.NamesWithTypes.map (·.1)).Nodup) :
    ((cols.foldl describeColumn c).NamesWithTypes.map (·.1)).Nodup ∧
      ∀ k, k ∈ (cols.foldl describeColumn c).NamesWithTypes.map (·.1) ↔
        (k ∈ c.NamesWithTypes.map (·.1) ∨
          ∃ v ∈ cols, v.Name = k ∧ expectedKind v = some MetaType.string) := by
  induction cols generalizing c with
  | nil => exact ⟨hc, fun k => by simp⟩
  | cons w tl ih =>
    rw [List.foldl_cons]
    have hstep : ((describeColumn c w).NamesWithTypes.map (·.1)).Nodup := by
      rw [describeColumn_NamesWithTypes]
      split_ifs
      · exact nodup_keys_mapSet _ _ _ hc
      · exact hc
    obtain ⟨h1, h2⟩ := ih (describeColumn c w) hstep
    refine ⟨h1, fun k => ?_⟩
    rw [h2 k, describeColumn_NamesWithTypes]
    by_cases hw : expectedKind w = some MetaType.string
    · rw [if_pos hw, mem_keys_mapSet]
      constructor
      · rintro ((h | h) | ⟨v, hv, hn, hk⟩)
        · exact Or.inr ⟨w, List.mem_cons_self _ _, h.symm, hw⟩
        · exact Or.inl h
        · exact Or.inr ⟨v, List.mem_cons_of_mem _ hv, hn, hk⟩
      · rintro (h | ⟨v, hv, hn, hk⟩)
        · exact Or.inl (Or.inr h)
        · rcases List.mem_cons.mp hv with h | h
          · subst h
            exact Or.inl (Or.inl hn.symm)
          · exact Or.inr ⟨v, h, hn, hk⟩
    · rw [if_neg hw]
      constructor
      · rintro (h | ⟨v, hv, hn, hk⟩)
        · exact Or.inl h
        · exact Or.inr ⟨v, List.mem_cons_of_mem _ hv, hn, hk⟩
      · rintro (h | ⟨v, hv, hn, hk⟩)
        · exact Or.inl h
        · rcases List.mem_cons.mp hv with h | h
          · subst h
            exact absurd hk hw
          · exact Or.inr ⟨v, h, hn, hk⟩

/-- The validation loop of the insert branch, when it accepts the body, has added to the
names exactly the fields it accepts, and keeps the names distinct. -/
theorem validateInsert_ok (md : List (String × MetaType)) (data : List (String × JsonField))
    (names0 names : List (String × FieldVal))
    (h : validateInsert md data names0 = .ok names)
    (hnodup : (names0.map (·.1)).Nodup) :
    (names.map (·.1)).Nodup ∧
      ∀ k, k ∈ names.map (·.1) ↔
        (k ∈ names0.map (·.1) ∨
          ∃ val, (k, val) ∈ data ∧ acceptedOnInsert (mapGet md k) val = true) := by
  induction data generalizing names0 with
  | nil =>
    simp only [validateInsert, Except.ok.injEq] at h
    subst h
    exact ⟨hnodup, fun k => by simp⟩
  | cons hd tl ih =>
    obtain ⟨a, v⟩ := hd
    have skip : validateInsert md tl names0 = .ok names →
        (∀ val, (a, val) = (a, v) → acceptedOnInsert (mapGet md a) val = false) →
        (names.map (·.1)).Nodup ∧
          ∀ k, k ∈ names.map (·.1) ↔
            (k ∈ names0.map (·.1) ∨
              ∃ val, (k, val) ∈ (a, v) :: tl ∧ acceptedOnInsert (mapGet md k) val = true) := by
      intro h' hrej
      obtain ⟨h1, h2⟩ := ih names0 h' hnodup
      refine ⟨h1, fun k => ?_⟩
      rw [h2 k]
      constructor
      · rintro (h | ⟨val, hv, hacc⟩)
        · exact Or.inl h
        · exact Or.inr ⟨val, List.mem_cons_of_mem _ hv, hacc⟩
      · rintro (h | ⟨val, hv, hacc⟩)
        · exact Or.inl h
        · rcases List.mem_cons.mp hv with h | h
          · obtain ⟨rfl, rfl⟩ := Prod.mk.inj h
            rw [hrej _ rfl] at hacc
            exact absurd hacc (by decide)
          · exact Or.inr ⟨val, h, hacc⟩
    have take : ∀ fv, validateInsert md tl (mapSet names0 a fv) = .ok names →
        acceptedOnInsert (mapGet md a) v = true →
        (names.map (·.1)).Nodup ∧
          ∀ k, k ∈ names.map (·.1) ↔
            (k ∈ names0.map (·.1) ∨
              ∃ val, (k, val) ∈ (a, v) :: tl ∧ acceptedOnInsert (mapGet md k) val = true) := by
      intro fv h' hacc
      obtain ⟨h1, h2⟩ := ih (mapSet names0 a fv) h' (nodup_keys_mapSet _ _ _ hnodup)
      refine ⟨h1, fun k => ?_⟩
      rw [h2 k, mem_keys_mapSet]
      constructor
      · rintro ((h | h) | ⟨val, hv, hacc2⟩)
        · subst h
          exact Or.inr ⟨v, List.mem_cons_self _ _, hacc⟩
        · exact Or.inl h
        · exact Or.inr ⟨val, List.mem_cons_of_mem _ hv, hacc2⟩
      · rintro (h | ⟨val, hv, hacc2⟩)
        · exact Or.inl (Or.inr h)
        · rcases List.mem_cons.mp hv with h | h
          · exact Or.inl (Or.inl (Prod.mk.inj h).1)
          · exact Or.inr ⟨val, h, hacc2⟩
    cases v with
    | number x =>
      simp only [validateInsert] at h
      exact skip h (fun val hval => by rw [(Prod.mk.inj hval).2]; rfl)
    | other =>
      simp only [validateInsert] at h
      exact skip h (fun val hval => by rw [(Prod.mk.inj hval).2]; rfl)
    | string s =>
      cases hm : mapGet md a with
      | none =>
        simp only [validateInsert, hm] at h
        exact skip h (fun val hval => by rw [(Prod.mk.inj hval).2, hm]; rfl)
      | some t =>
        cases t with
        | string =>
          simp only [validateInsert, hm] at h
          exact take _ h (by rw [hm]; rfl)
        | NullString =>
          simp only [validateInsert, hm] at h
          exact take _ h (by rw [hm]; rfl)
        | int32 => simp [validateInsert, hm] at h
        | NullInt32 => simp [validateInsert, hm] at h
    | null =>
      cases hm : mapGet md a with
      | none => simp [validateInsert, hm] at h
      | some t =>
        cases t with
        | NullString =>
          simp only [validateInsert, hm] at h
          exact take _ h (by rw [hm]; rfl)
        | NullInt32 =>
          simp only [validateInsert, hm] at h
          exact take _ h (by rw [hm]; rfl)
        | int32 => simp [validateInsert, hm] at h
        | string => simp [validateInsert, hm] at h

theorem mem_mapSet {V : Type} (m : List (String × V)) (k : String) (v : V) (p : String × V)
    (h : p ∈ mapSet m k v) : p = (k, v) ∨ p ∈ m := by
  induction m with
  | nil =>
    simp only [mapSet, List.mem_singleton] at h
    exact Or.inl h
  | cons hd tl ih =>
    obtain ⟨a, b⟩ := hd
    by_cases ha : a = k
    · subst ha
      simp only [mapSet, if_true, List.mem_cons] at h
      rcases h with h | h
      · exact Or.inl h
      · exact Or.inr (List.mem_cons_of_mem _ h)
    · simp only [mapSet, if_neg ha, List.mem_cons] at h
      rcases h with h | h
      · exact Or.inr (h ▸ List.mem_cons_self _ _)
      · rcases ih h with h1 | h1
        · exact Or.inl h1
        · exact Or.inr (List.mem_cons_of_mem _ h1)

theorem mem_mapSet_of_nodup {V : Type} (m : List (String × V)) (k : String) (v : V)
    (p : String × V) (hnodup : (m.map (·.1)).Nodup) (h : p ∈ mapSet m k v) :
    p = (k, v) ∨ (p ∈ m ∧ p.1 ≠ k) := by
  induction m with
  | nil =>
    simp only [mapSet, List.mem_singleton] at h
    exact Or.inl h
  | cons hd tl ih =>
    obtain ⟨a, b⟩ := hd
    simp only [List.map_cons, List.nodup_cons] at hnodup
    by_cases ha : a = k
    · subst ha
      simp only [mapSet, if_true, List.mem_cons] at h
      rcases h with h | h
      · exact Or.inl h
      · refine Or.inr ⟨List.mem_cons_of_mem _ h, ?_⟩
        intro hp
        exact hnodup.1 (hp ▸ List.mem_map_of_mem (·.1) h)
    · simp only [mapSet, if_neg ha, List.mem_cons] at h
      rcases h with h | h
      · subst h
        exact Or.inr ⟨List.mem_cons_self _ _, ha⟩
      · rcases ih hnodup.2 h with h1 | h1
        · exact Or.inl h1
        · exact Or.inr ⟨List.mem_cons_of_mem _ h1.1, h1.2⟩

/-- Every value `NewQuery` enters into `NamesWithTypes` is the empty string. -/
theorem foldl_describeColumn_values (cols : List ColumnType) (c : Columns)
    (hc : ∀ p ∈ c.NamesWithTypes, p.2 = FieldVal.str "") :
    ∀ p ∈ (cols.foldl describeColumn c).NamesWithTypes, p.2 = FieldVal.str "" := by
  induction cols generalizing c with
  | nil => exact hc
  | cons w tl ih =>
    rw [List.foldl_cons]
    apply ih
    intro p hp
    rw [describeColumn_NamesWithTypes] at hp
    split_ifs at hp
    · rcases mem_mapSet _ _ _ _ hp with h | h
      · rw [h]
      · exact hc p h
    · exact hc p hp

/-- The validation loop of the insert branch, when it accepts the body, leaves every entry
either as it was, for a name under which the body has no accepted field, or holding the
value of an accepted field of the body. -/
theorem validateInsert_values (md : List (String × MetaType))
    (data : List (String × JsonField)) (names0 names : List (String × FieldVal))
    (h : validateInsert md data names0 = .ok names)
    (hnodup : (names0.map (·.1)).Nodup) :
    ∀ p ∈ names,
      (p ∈ names0 ∧
          ¬∃ val, (p.1, val) ∈ data ∧ acceptedOnInsert (mapGet md p.1) val = true) ∨
        ∃ val, (p.1, val) ∈ data ∧ acceptedOnInsert (mapGet md p.1) val = true ∧
          p.2 = insertValue (mapGet md p.1) val := by
  induction data generalizing names0 with
  | nil =>
    simp only [validateInsert, Except.ok.injEq] at h
    subst h
    intro p hp
    exact Or.inl ⟨hp, by simp⟩
  | cons hd tl ih =>
    obtain ⟨a, v⟩ := hd
    have skip : validateInsert md tl names0 = .ok names →
        acceptedOnInsert (mapGet md a) v = false →
        ∀ p ∈ names,
          (p ∈ names0 ∧
              ¬∃ val, (p.1, val) ∈ (a, v) :: tl ∧
                acceptedOnInsert (mapGet md p.1) val = true) ∨
            ∃ val, (p.1, val) ∈ (a, v) :: tl ∧ acceptedOnInsert (mapGet md p.1) val = true ∧
              p.2 = insertValue (mapGet md p.1) val := by
      intro h' hrej p hp
      rcases ih names0 h' hnodup p hp with ⟨h1, h2⟩ | ⟨val, h1, h2, h3⟩
      · refine Or.inl ⟨h1, ?_⟩
        rintro ⟨val, hv, hacc⟩
        rcases List.mem_cons.mp hv with hv | hv
        · obtain ⟨hk, hval⟩ := Prod.mk.inj hv
          rw [hk, hval, hrej] at hacc
          exact absurd hacc (by decide)
        · exact h2 ⟨val, hv, hacc⟩
      · exact Or.inr ⟨val, List.mem_cons_of_mem _ h1, h2, h3⟩
    have take : ∀ fv, validateInsert md tl (mapSet names0 a fv) = .ok names →
        acceptedOnInsert (mapGet md a) v = true → fv = insertValue (mapGet md a) v →
        ∀ p ∈ names,
          (p ∈ names0 ∧
              ¬∃ val, (p.1, val) ∈ (a, v) :: tl ∧
                acceptedOnInsert (mapGet md p.1) val = true) ∨
            ∃ val, (p.1, val) ∈ (a, v) :: tl ∧ acceptedOnInsert (mapGet md p.1) val = true ∧
              p.2 = insertValue (mapGet md p.1) val := by
      intro fv h' hacc hfv p hp
      rcases ih (mapSet names0 a fv) h' (nodup_keys_mapSet _ _ _ hnodup) p hp with
        ⟨h1, h2⟩ | ⟨val, h1, h2, h3⟩
      · rcases mem_mapSet_of_nodup _ _ _ _ hnodup h1 with hp1 | ⟨hp1, hne⟩
        · subst hp1
          exact Or.inr ⟨v, List.mem_cons_self _ _, hacc, hfv⟩
        · refine Or.inl ⟨hp1, ?_⟩
          rintro ⟨val, hv, hacc2⟩
          rcases List.mem_cons.mp hv with hv | hv
          · exact hne (Prod.mk.inj hv).1
          · exact h2 ⟨val, hv, hacc2⟩
      · exact Or.inr ⟨val, List.mem_cons_of_mem _ h1, h2, h3⟩
    cases v with
    | number x =>
      simp only [validateInsert] at h
      exact skip h rfl
    | other =>
      simp only [validateInsert] at h
      exact skip h rfl
    | string s =>
      cases hm : mapGet md a with
      | none =>
        simp only [validateInsert, hm] at h
        exact skip h (by rw [hm]; rfl)
      | some t =>
        cases t with
        | string =>
          simp only [validateInsert, hm] at h
          exact take _ h (by rw [hm]; rfl) rfl
        | NullString =>
          simp only [validateInsert, hm] at h
          exact take _ h (by rw [hm]; rfl) rfl
        | int32 => simp [validateInsert, hm] at h
        | NullInt32 => simp [validateInsert, hm] at h
    | null =>
      cases hm : mapGet md a with
      | none => simp [validateInsert, hm] at h
      | some t =>
        cases t with
        | NullString =>
          simp only [validateInsert, hm] at h
          exact take _ h (by rw [hm]; rfl) (by rw [hm]; rfl)
        | NullInt32 =>
          simp only [validateInsert, hm] at h
          exact take _ h (by rw [hm]; rfl) (by rw [hm]; rfl)
        | int32 => simp [validateInsert, hm] at h
        | string => simp [validateInsert, hm] at h

/-- C5 (amended): for a known table described from at least one row and a request without
id part whose body is a JSON object, `CreateAndUpdate` either rejects the body with HTTP 400
before any `Exec`, or executes one `INSERT` whose column list has no repetition, carries
one placeholder and one bound value per column, and consists of exactly the required
(non-nullable) text columns of the table together with the body fields accepted by
validation; the value bound to a column is the `%s` rendering of the accepted body field of
that name, and the empty string when the body has no accepted field of that name, so every
required text column the body did not supply is in the statement, bound to the empty
string. -/
theorem C5_insert_column_list (db : SqlDB) (r : Request) (tableNames : List String)
    (result : Rows) (data : List (String × JsonField))
    (htables : getTableNames db = .ok tableNames)
    (hknown : reqTableNameOf r.Path ∈ tableNames)
    (hnoid : matchSlashDigit (reWithIDFind r.Path.data) = false)
    (hbody : r.Body = Body.object data)
    (hq : db.Query ("SELECT * FROM " ++ reqTableNameOf r.Path) = .ok result)
    (hopen : result.closedErr = none) (hrows : result.rows ≠ []) :
    ∃ columns, NewQuery db ("SELECT * FROM " ++ reqTableNameOf r.Path) = .ok columns ∧
      ((∃ k, CreateAndUpdate db r =
          ⟨[.query "SHOW TABLES", .query ("SELECT * FROM " ++ reqTableNameOf r.Path)],
            [(400, .error ("field " ++ k ++ " have invalid type"))], false⟩) ∨
        ∃ fs values, (CreateAndUpdate db r).calls =
            [.query "SHOW TABLES", .query ("SELECT * FROM " ++ reqTableNameOf r.Path),
              .exec (insertQuery (reqTableNameOf r.Path) fs (fs.map (fun _ => "?"))) values] ∧
          values.length = fs.length ∧ fs.Nodup ∧
          (∀ k, k ∈ fs ↔
            ((∃ v ∈ result.columnTypes, v.Name = k ∧ expectedKind v = some MetaType.string) ∨
              ∃ val, (k, val) ∈ data ∧
                acceptedOnInsert (mapGet columns.MetaData k) val = true)) ∧
          (∀ k bv, (k, bv) ∈ fs.zip values →
            ((∃ val, (k, val) ∈ data ∧
                acceptedOnInsert (mapGet columns.MetaData k) val = true ∧
                bv = FieldVal.str (fmtS (insertValue (mapGet columns.MetaData k) val))) ∨
              ((¬∃ val, (k, val) ∈ data ∧
                  acceptedOnInsert (mapGet columns.MetaData k) val = true) ∧
                bv = FieldVal.str ""))) ∧
          ∀ v ∈ result.columnTypes, expectedKind v = some MetaType.string →
            (¬∃ val, (v.Name, val) ∈ data ∧
              acceptedOnInsert (mapGet columns.MetaData v.Name) val = true) →
            (v.Name, FieldVal.str "") ∈ fs.zip values) := by
  have hnq : NewQuery db ("SELECT * FROM " ++ reqTableNameOf r.Path) =
      .ok (result.rows.foldl (fun acc _ => result.columnTypes.foldl describeColumn acc)
        ⟨[], [], ""⟩) := by
    simp only [NewQuery, hq]
    exact newQueryLoop_ok result hopen _ _
  have hinv := rows_foldl_invariant result.columnTypes
    (fun c => (c.NamesWithTypes.map (·.1)).Nodup ∧
      (∀ k, k ∈ c.NamesWithTypes.map (·.1) ↔
        ∃ v ∈ result.columnTypes, v.Name = k ∧ expectedKind v = some MetaType.string) ∧
      ∀ p ∈ c.NamesWithTypes, p.2 = FieldVal.str "")
    (by
      intro c hc
      have hcn : (c.NamesWithTypes.map (·.1)).Nodup := by
        rcases hc with hc | hc
        · subst hc; exact List.nodup_nil
        · exact hc.1
      have hcv : ∀ p ∈ c.NamesWithTypes, p.2 = FieldVal.str "" := by
        rcases hc with hc | hc
        · subst hc; intro p hp; simp at hp
        · exact hc.2.2
      obtain ⟨h1, h2⟩ := foldl_describeColumn_NamesWithTypes result.columnTypes c hcn
      refine ⟨h1, fun k => ?_, foldl_describeColumn_values result.columnTypes c hcv⟩
      rw [h2 k]
      rcases hc with hc | hc
      · subst hc; simp
      · rw [hc.2.1 k]; simp)
    result.rows hrows
  refine ⟨_, hnq, ?_⟩
  generalize result.rows.foldl (fun acc _ => result.columnTypes.foldl describeColumn acc)
    ⟨[], [], ""⟩ = columns at hnq hinv
  have hrun : CreateAndUpdate db r =
      createAndUpdateTable db r (reqTableNameOf r.Path) (reWithIDFind r.Path.data) := by
    unfold CreateAndUpdate
    simp only [htables]
    exact createAndUpdateLoop_of_mem _ _ _ _ _ hknown
  rw [hrun]
  unfold createAndUpdateTable
  simp only [hbody, hnq, hnoid]
  cases hv : validateInsert columns.MetaData data columns.NamesWithTypes with
  | error k => exact Or.inl ⟨k, by simp⟩
  | ok names =>
    obtain ⟨h1, h2⟩ := validateInsert_ok _ _ _ _ hv hinv.1
    have h3 := validateInsert_values _ _ _ _ hv hinv.1
    have hbound : ∀ p ∈ names,
        (∃ val, (p.1, val) ∈ data ∧
            acceptedOnInsert (mapGet columns.MetaData p.1) val = true ∧
            FieldVal.str (fmtS p.2) =
              FieldVal.str (fmtS (insertValue (mapGet columns.MetaData p.1) val))) ∨
          ((¬∃ val, (p.1, val) ∈ data ∧
              acceptedOnInsert (mapGet columns.MetaData p.1) val = true) ∧
            FieldVal.str (fmtS p.2) = FieldVal.str "") := by
      intro p hp
      rcases h3 p hp with ⟨hp0, hno⟩ | ⟨val, hmem, hacc, hval⟩
      · exact Or.inr ⟨hno, by rw [hinv.2.2 p hp0]; rfl⟩
      · exact Or.inl ⟨val, hmem, hacc, by rw [hval]⟩
    refine Or.inr ⟨names.map (·.1), names.map (fun kv => FieldVal.str (fmtS kv.2)), ?_,
      by simp, h1, fun k => ?_, ?_, ?_⟩
    · simp only [List.map_map, Bool.false_eq_true, if_false]
      split
      · rfl
      · split <;> rfl
    · rw [h2 k, hinv.2.1 k]
    · intro k bv hmem
      rw [List.zip_map'] at hmem
      obtain ⟨p, hp, heq⟩ := List.mem_map.mp hmem
      obtain ⟨rfl, rfl⟩ := Prod.mk.inj heq
      exact hbound p hp
    · intro v hvmem hkind hno
      have hin : v.Name ∈ names.map (·.1) :=
        (h2 v.Name).mpr (Or.inl ((hinv.2.1 v.Name).mpr ⟨v, hvmem, rfl, hkind⟩))
      obtain ⟨p, hp, hname⟩ := List.mem_map.mp hin
      rw [List.zip_map']
      refine List.mem_map.mpr ⟨p, hp, ?_⟩
      have hname2 : p.1 = v.Name := hname
      rcases hbound p hp with ⟨val, hmem, hacc, _⟩ | ⟨_, hb⟩
      · exact absurd ⟨val, hname2 ▸ hmem, hname2 ▸ hacc⟩ hno
      · rw [hb, hname2]

/-- C5 (witness): `POST /items` with the text field `description`. -/
theorem C5_insert_column_list_witness :
    ∃ columns, NewQuery itemsDB "SELECT * FROM items" = .ok columns ∧
      ((∃ k, CreateAndUpdate itemsDB
            ⟨"POST", "/items", [], .object [("description", .string "x")]⟩ =
          ⟨[.query "SHOW TABLES", .query "SELECT * FROM items"],
            [(400, .error ("field " ++ k ++ " have invalid type"))], false⟩) ∨
        ∃ fs values, (CreateAndUpdate itemsDB
              ⟨"POST", "/items", [], .object [("description", .string "x")]⟩).calls =
            [.query "SHOW TABLES", .query "SELECT * FROM items",
              .exec (insertQuery "items" fs (fs.map (fun _ => "?"))) values] ∧
          values.length = fs.length ∧ fs.Nodup ∧
          (∀ k, k ∈ fs ↔
            ((∃ v ∈ itemsColumns, v.Name = k ∧ expectedKind v = some MetaType.string) ∨
              ∃ val, (k, val) ∈ [("description", JsonField.string "x")] ∧
                acceptedOnInsert (mapGet columns.MetaData k) val = true)) ∧
          (∀ k bv, (k, bv) ∈ fs.zip values →
            ((∃ val, (k, val) ∈ [("description", JsonField.string "x")] ∧
                acceptedOnInsert (mapGet columns.MetaData k) val = true ∧
                bv = FieldVal.str (fmtS (insertValue (mapGet columns.MetaData k) val))) ∨
              ((¬∃ val, (k, val) ∈ [("description", JsonField.string "x")] ∧
                  acceptedOnInsert (mapGet columns.MetaData k) val = true) ∧
                bv = FieldVal.str ""))) ∧
          ∀ v ∈ itemsColumns, expectedKind v = some MetaType.string →
            (¬∃ val, (v.Name, val) ∈ [("description", JsonField.string "x")] ∧
              acceptedOnInsert (mapGet columns.MetaData v.Name) val = true) →
            (v.Name, FieldVal.str "") ∈ fs.zip values) :=
  C5_insert_column_list itemsDB ⟨"POST", "/items", [], .object [("description", .string "x")]⟩
    ["items"] ⟨none, itemsColumns, itemsRows⟩ [("description", .string "x")]
    rfl (by decide) (by decide) rfl rfl rfl (by decide)

/-- C5 (counterexample): a `POST /items` whose body supplies only `description` executes an
`INSERT` that also lists the column `title`, bound to the empty string (the columns are
listed in insertion order here; Go may list them in any order). -/
theorem C5_unsupplied_column_counterexample :
    (CreateAndUpdate itemsDB
        ⟨"POST", "/items", [], .object [("description", .string "x")]⟩).calls =
      [.query "SHOW TABLES", .query "SELECT * FROM items",
        .exec "INSERT INTO items (title, description) VALUES (?, ?)" [.str "", .str "x"]] ∧
      "title" ∉ [("description", JsonField.string "x")].map (·.1) := by
  decide

/-! ## Delete and the row identifier -/

theorem deleteLoop_of_not_mem (db : SqlDB) (t : String) (reWithID : List Char)
    (tableNames : List String) (h : t ∉ tableNames) :
    deleteLoop db t reWithID tableNames = ⟨[.query "SHOW TABLES"], [], false⟩ := by
  induction tableNames with
  | nil => rfl
  | cons a tl ih =>
    simp only [List.mem_cons, not_or] at h
    have ha : ¬a = t := fun h2 => h.1 h2.symm
    simp only [deleteLoop, if_neg ha]
    exact ih h.2

/-- On a table name that is not listed, `Read` answers 404 with the unknown-table envelope. -/
theorem Read_unknown_table (db : SqlDB) (r : Request) (tableNames : List String)
    (htables : getTableNames db = .ok tableNames) (hpath : r.Path ≠ "/")
    (hunknown : reqTableNameOf r.Path ∉ tableNames) :
    Read db r = ⟨[.query "SHOW TABLES"], [(404, .error "unknown table")], false⟩ := by
  unfold Read
  simp only [htables, if_neg hpath]
  exact readLoop_of_not_mem _ _ _ _ _ hunknown

/-- On a table name that is not listed, `CreateAndUpdate` answers 200 with the unknown-table
envelope. -/
theorem CreateAndUpdate_unknown_table (db : SqlDB) (r : Request) (tableNames : List String)
    (htables : getTableNames db = .ok tableNames)
    (hunknown : reqTableNameOf r.Path ∉ tableNames) :
    CreateAndUpdate db r = ⟨[.query "SHOW TABLES"], [(200, .error "unknown table")], false⟩ := by
  unfold CreateAndUpdate
  simp only [htables]
  exact createAndUpdateLoop_of_not_mem _ _ _ _ _ hunknown

/-- On a table name that is not listed, `Delete` writes nothing at all. -/
theorem Delete_unknown_table (db : SqlDB) (r : Request) (tableNames : List String)
    (htables : getTableNames db = .ok tableNames)
    (hunknown : reqTableNameOf r.Path ∉ tableNames) :
    Delete db r = ⟨[.query "SHOW TABLES"], [], false⟩ := by
  unfold Delete
  simp only [htables]
  exact deleteLoop_of_not_mem _ _ _ _ hunknown

/-- C7 (failing input): on the table `users`, whose identity column is `user_id`,
`DELETE /users/1` executes `DELETE FROM users WHERE id=1`, while `GET /users/1` filters on
the identity column `user_id` that `NewQuery` returns. -/
theorem C7_delete_filters_on_literal_id :
    (NewQuery usersDB "SELECT * FROM users ").toOption.map (·.IDNameColumn) = some "user_id" ∧
      (ServeHTTP usersDB ⟨"GET", "/users/1", [], .notObject⟩).calls =
        [.query "SHOW TABLES", .query "SELECT * FROM users ",
          .query "SELECT * FROM users WHERE user_id = 1"] ∧
      (ServeHTTP usersDB ⟨"DELETE", "/users/1", [], .notObject⟩).calls =
        [.query "SHOW TABLES", .exec "DELETE FROM users WHERE id=1" []] := by
  decide

/-- C8 (failing input): `GET /items/` interpolates the empty string as row identifier, and
`DELETE /items/1 OR 1=1` interpolates `1 OR 1=1`; neither is a non-empty string of digits. -/
theorem C8_identifier_not_validated :
    (ServeHTTP itemsDB ⟨"GET", "/items/", [], .notObject⟩).calls =
        [.query "SHOW TABLES", .query "SELECT * FROM items ",
          .query "SELECT * FROM items WHERE id = "] ∧
      (ServeHTTP itemsDB ⟨"DELETE", "/items/1 OR 1=1", [], .notObject⟩).calls =
        [.query "SHOW TABLES", .exec "DELETE FROM items WHERE id=1 OR 1=1" []] := by
  decide

/-- C9 (failing input): with `items` the only table, `DELETE /nosuch/1` ends without writing
any response, while `GET /nosuch/1` writes the unknown-table envelope with status 404 and
`PUT /nosuch/1` and `POST /nosuch` write it with status 200. -/
theorem C9_delete_unknown_table_writes_nothing :
    (ServeHTTP itemsDB ⟨"DELETE", "/nosuch/1", [], .notObject⟩) =
        ⟨[.query "SHOW TABLES"], [], false⟩ ∧
      (ServeHTTP itemsDB ⟨"GET", "/nosuch/1", [], .notObject⟩).writes =
        [(404, .error "unknown table")] ∧
      (ServeHTTP itemsDB ⟨"PUT", "/nosuch/1", [], .object []⟩).writes =
        [(200, .error "unknown table")] ∧
      (ServeHTTP itemsDB ⟨"POST", "/nosuch", [], .object []⟩).writes =
        [(200, .error "unknown table")] := by
  decide

end DbExplorer
